import Mathlib

/-!
Shallow embedding of the order production-tracking engine of the
deco-robi-firebase repository (src/src/types.ts: the `OrderItem`/`Batch` data
model and the App state transitions `computeFullyDone`, `onStart`, `onPause`,
`onResume`, `confirmStop`, `saveAdvance`, `changeStatus`, `hideOrder`,
`restoreOrder`, `forceComplete`, `resetOrder`, `deleteForever`).

JS numbers are modelled as `Int` (every quantity the claims touch is compared
and added, never divided, so integer arithmetic is faithful); nullable fields
are `Option`; the Firestore `steps_progress` / `steps_time` objects are total
functions `Int → Int` with absent keys reading as 0, exactly the `?? 0`
defaulting in the source; `serverTimestamp()` / `new Date()` become an
explicit `now : Int` parameter; `genId()` becomes an explicit fresh-id
parameter.  An operation that the source rejects by alerting and returning
before any write is modelled as returning `none`.
-/

namespace DecoRobi

/-- Order row status union from `OrderItem.status` in types.ts. -/
inductive OrderStatus where
  | da_iniziare
  | in_esecuzione
  | pausato
  | eseguito
  | in_essiccazione
  | in_imballaggio
  | pronti_consegna
  deriving DecidableEq

/-- Batch status union from the `Batch` type in App.tsx. -/
inductive BatchStatus where
  | parziale
  | in_essiccazione
  | in_imballaggio
  | pronti_consegna
  | eseguito
  deriving DecidableEq

/-- The three phases offered by the advance-phase modal select. -/
inductive AdvancePhase where
  | in_essiccazione
  | in_imballaggio
  | pronti_consegna
  deriving DecidableEq

/-- `AdvancePhase` values are a subset of `BatchStatus`. -/
def AdvancePhase.toBatchStatus : AdvancePhase → BatchStatus
  | AdvancePhase.in_essiccazione => BatchStatus.in_essiccazione
  | AdvancePhase.in_imballaggio => BatchStatus.in_imballaggio
  | AdvancePhase.pronti_consegna => BatchStatus.pronti_consegna

/-- One entry of `notes_log` (the `OrderNote` type in types.ts). -/
structure OrderNote where
  ts : Int
  operator : Option String
  text : String
  step : Option Int
  pieces : Option Int
  deriving DecidableEq

/-- One entry of `ops_log` (the activity log pushed by `confirmStop`). -/
structure OpsEntry where
  ts : Int
  operator : Option String
  step : Int
  pieces : Int
  duration_sec : Int
  deriving DecidableEq

/-- The `Batch` type in App.tsx. -/
structure Batch where
  id : String
  qty : Int
  status : BatchStatus
  created_at : Int
  status_changed_at : Option Int
  packed_qty : Option Int
  packed_boxes : Option Int
  packed_size : Option String
  packed_weight : Option Int
  packed_notes : Option String
  deriving DecidableEq

/-- The local per-order `TimerState` of App.tsx
(`{ running, startedAt, elapsed }`). -/
structure TimerState where
  running : Bool
  startedAt : Option Int
  elapsed : Int
  deriving DecidableEq

/-- The persisted order document: `OrderItem` of types.ts plus the extra
fields the App reads and writes on the same document (`total_elapsed_sec`,
`ops_log`, `batches`, `hidden`, `forced_completed`, `deleted_at`,
`deleted_permanently`, `description`). -/
structure OrderState where
  order_number : String
  customer : String
  product_code : String
  description : String
  ml : Option Int
  qty_requested : Option Int
  qty_in_oven : Option Int
  steps_count : Int
  steps_progress : Int → Int
  steps_time : Int → Int
  qty_done : Option Int
  status : OrderStatus
  elapsed_sec : Option Int
  total_elapsed_sec : Option Int
  timer_start : Option Int
  last_operator : Option String
  last_notes : Option String
  last_step : Option Int
  last_pieces : Option Int
  last_duration_sec : Option Int
  notes_log : List OrderNote
  ops_log : List OpsEntry
  packed_qty : Option Int
  packed_boxes : Option Int
  packed_size : Option String
  packed_weight : Option Int
  packed_notes : Option String
  batches : List Batch
  hidden : Bool
  forced_completed : Bool
  deleted_at : Option Int
  deleted_permanently : Bool
  created_at : Option Int
  last_done_at : Option Int
  status_changed_at : Option Int

/-- The stop-modal input (`stopStep`, `stopPieces`, `stopOperator`,
`stopNotes`). -/
structure StopInput where
  step : Int
  pieces : Int
  operator : String
  notes : String
  deriving DecidableEq

/-- The advance-phase modal input (`advanceBatchId`, `advancePhase`,
`advancePacked`, `advanceBoxes`, `advanceSize`, `advanceWeight`,
`advanceNotes`); the `number | ''` fields are `Option Int`. -/
structure AdvanceInput where
  batchId : String
  phase : AdvancePhase
  packed : Int
  boxes : Option Int
  size : String
  weight : Option Int
  notes : String
  deriving DecidableEq

/-- JS `Number(x || 0)` on a nullable numeric field. -/
def numOr0 (x : Option Int) : Int := x.getD 0

/-- JS `Math.round(d / 1000)` for an integer millisecond difference `d`:
round half toward positive infinity is `⌊(d + 500) / 1000⌋`. -/
def jsRound1000 (d : Int) : Int := Int.fdiv (d + 500) 1000

/-- `baseElapsedOf(row) = Number((row?.total_elapsed_sec ?? row?.elapsed_sec) || 0)`. -/
def baseElapsedOf (o : OrderState) : Int :=
  match o.total_elapsed_sec with
  | some v => v
  | none => numOr0 o.elapsed_sec

/-- Minimum of `p 1, …, p n` (the `Math.min(...vals)` over the values pushed
by the `computeFullyDone` loop); the `0` arm is unreachable for the callers,
which guard `stepsCount ≥ 1`. -/
def stepMin (p : Int → Int) : Nat → Int
  | 0 => 0
  | 1 => p 1
  | n + 2 => min (stepMin p (n + 1)) (p (Int.ofNat (n + 2)))

/-- `computeFullyDone(stepsCount, stepsProgress, defaultZero)` from App.tsx:
0 when `stepsCount ≤ 0`, else `Math.max(defaultZero, Math.min(...vals))`
where `vals[i] = stepsProgress[i] ?? 0` for `i = 1..stepsCount`. -/
def computeFullyDone (stepsCount : Int) (stepsProgress : Int → Int) (defaultZero : Int) : Int :=
  if stepsCount ≤ 0 then 0
  else max defaultZero (stepMin stepsProgress stepsCount.toNat)

/-- Sum of `batch.qty` over a batch list. -/
def batchSum (bs : List Batch) : Int := bs.foldr (fun b acc => b.qty + acc) 0

/-- First batch whose id matches (the `findIndex` of `saveAdvance`). -/
def findBatch (bs : List Batch) (bid : String) : Option Batch :=
  match bs with
  | [] => none
  | b :: rest => if b.id = bid then some b else findBatch rest bid

/-- Replace the first batch whose id matches by `f` of it
(`batches[idx] = b` after `findIndex`). -/
def updateFirstBatch (bs : List Batch) (bid : String) (f : Batch → Batch) : List Batch :=
  match bs with
  | [] => []
  | b :: rest => if b.id = bid then f b :: rest else b :: updateFirstBatch rest bid f

/-- `extraFromRun = t?.startedAt ? Math.round((now - t.startedAt) / 1000) : 0`
(a numeric `startedAt` of 0 is falsy in JS). -/
def stopExtraRun (t : Option TimerState) (now : Int) : Int :=
  match t with
  | some ts =>
    match ts.startedAt with
    | some s => if s = 0 then 0 else jsRound1000 (now - s)
    | none => 0
  | none => 0

/-- `totalElapsed = Math.max(0, prevElapsed + extraFromRun)` in `confirmStop`. -/
def stopTotalElapsed (o : OrderState) (t : Option TimerState) (now : Int) : Int :=
  max 0 (baseElapsedOf o + stopExtraRun t now)

/-- `nextStepsProg` in `confirmStop`:
`nextStepsProg[pass] = (nextStepsProg[pass] ?? 0) + Number(stopPieces || 0)`. -/
def stopProg (o : OrderState) (inp : StopInput) : Int → Int :=
  fun j => if j = inp.step then o.steps_progress inp.step + inp.pieces else o.steps_progress j

/-- `nextStepsTime` in `confirmStop`:
`nextStepsTime[pass] = (nextStepsTime[pass] ?? 0) + extraFromRun`. -/
def stopTime (o : OrderState) (t : Option TimerState) (inp : StopInput) (now : Int) : Int → Int :=
  fun j => if j = inp.step then o.steps_time inp.step + stopExtraRun t now else o.steps_time j

/-- `newFully = computeFullyDone(stepsCount, nextStepsProg, 0)` in `confirmStop`. -/
def stopNewFully (o : OrderState) (inp : StopInput) : Int :=
  computeFullyDone o.steps_count (stopProg o inp) 0

/-- `deltaNewBatch = Math.max(0, newFully - prevFully)` in `confirmStop`. -/
def stopDelta (o : OrderState) (inp : StopInput) : Int :=
  max 0 (stopNewFully o inp - numOr0 o.qty_done)

/-- The new batch pushed by `confirmStop` when `deltaNewBatch > 0`. -/
def stopBatch (o : OrderState) (inp : StopInput) (now : Int) (newBatchId : String) : Batch :=
  { id := newBatchId, qty := stopDelta o inp, status := BatchStatus.parziale,
    created_at := now, status_changed_at := none, packed_qty := none,
    packed_boxes := none, packed_size := none, packed_weight := none,
    packed_notes := none }

/-- Updated batch list of `confirmStop`: push one new batch iff
`deltaNewBatch > 0`. -/
def stopBatches (o : OrderState) (inp : StopInput) (now : Int) (newBatchId : String) : List Batch :=
  if 0 < stopDelta o inp then o.batches ++ [stopBatch o inp now newBatchId] else o.batches

/-- `stopOperator || null` on a validated (non-empty) operator string. -/
def strOrNone (s : String) : Option String := if s = "" then none else some s

/-- The note pushed onto `notes_log` by `confirmStop` when the stop carried
a non-empty trimmed note. -/
def stopNote (inp : StopInput) (now : Int) : OrderNote :=
  { ts := now, operator := strOrNone inp.operator, text := inp.notes.trim,
    step := some inp.step, pieces := some inp.pieces }

/-- Notes log of `confirmStop`: push an entry iff `stopNotes.trim()` is
non-empty. -/
def stopNotesLog (o : OrderState) (inp : StopInput) (now : Int) : List OrderNote :=
  if inp.notes.trim = "" then o.notes_log
  else o.notes_log ++ [stopNote inp now]

/-- The activity-log entry pushed unconditionally by `confirmStop`. -/
def stopOpsEntry (t : Option TimerState) (inp : StopInput) (now : Int) : OpsEntry :=
  { ts := now, operator := strOrNone inp.operator, step := inp.step,
    pieces := inp.pieces, duration_sec := stopExtraRun t now }

/-- Activity log of `confirmStop`: one entry pushed unconditionally. -/
def stopOpsLog (o : OrderState) (t : Option TimerState) (inp : StopInput) (now : Int) : List OpsEntry :=
  o.ops_log ++ [stopOpsEntry t inp now]

/-- The persisted order document after a validated stop: the `patch` merged
into the document by `setDoc(..., patch, { merge: true })` in `confirmStop`. -/
def stopOrder (o : OrderState) (t : Option TimerState) (inp : StopInput) (now : Int) (newBatchId : String) : OrderState :=
  { o with
    status := if 0 < numOr0 o.qty_requested ∧ numOr0 o.qty_requested ≤ stopNewFully o inp
      then OrderStatus.eseguito else OrderStatus.da_iniziare,
    elapsed_sec := some (stopTotalElapsed o t now),
    total_elapsed_sec := some (stopTotalElapsed o t now),
    timer_start := none,
    last_done_at := some now,
    steps_time := stopTime o t inp now,
    steps_progress := stopProg o inp,
    qty_done := some (stopNewFully o inp),
    last_operator := strOrNone inp.operator,
    last_notes := strOrNone inp.notes,
    last_step := some inp.step,
    last_pieces := some inp.pieces,
    last_duration_sec := some (stopExtraRun t now),
    notes_log := stopNotesLog o inp now,
    ops_log := stopOpsLog o t inp now,
    batches := stopBatches o inp now newBatchId }

/-- The local timer entry written by `confirmStop`. -/
def stopTimer (o : OrderState) (t : Option TimerState) (now : Int) : TimerState :=
  { running := false, startedAt := none, elapsed := stopTotalElapsed o t now }

/-- `confirmStop` of App.tsx: the three validations (`alert` + early return,
hence no mutation) followed by the merged write and the local timer update.
`none` models a rejected stop. -/
def confirmStop (o : OrderState) (t : Option TimerState) (inp : StopInput) (now : Int) (newBatchId : String) : Option (OrderState × TimerState) :=
  if inp.step < 1 ∨ (0 < o.steps_count ∧ o.steps_count < inp.step) then none
  else if inp.pieces ≤ 0 then none
  else if inp.operator = "" then none
  else some (stopOrder o t inp now newBatchId, stopTimer o t now)

/-- Total wrapper: a rejected stop leaves both the document and the local
state unchanged. -/
def applyStop (st : OrderState × Option TimerState) (inp : StopInput) (now : Int) (newBatchId : String) : OrderState × Option TimerState :=
  match confirmStop st.1 st.2 inp now newBatchId with
  | none => st
  | some r => (r.1, some r.2)

/-- `onStart`: set status running, `timer_start = now`, start the local timer
from the carried base elapsed. -/
def onStart (o : OrderState) (now : Int) : OrderState × TimerState :=
  ({ o with status := OrderStatus.in_esecuzione, timer_start := some now },
   { running := true, startedAt := some now, elapsed := baseElapsedOf o })

/-- The default timer entry `{ running: false, startedAt: null, elapsed:
baseElapsedOf(row) }` used when no local timer exists yet. -/
def defaultTimer (o : OrderState) : TimerState :=
  { running := false, startedAt := none, elapsed := baseElapsedOf o }

/-- The checkpointed elapsed seconds computed by `onPause`:
`(t.elapsed || 0) + extra`. -/
def pauseElapsed (o : OrderState) (t : Option TimerState) (now : Int) : Int :=
  (t.getD (defaultTimer o)).elapsed + stopExtraRun t now

/-- `onPause`: checkpoint the running segment into `elapsed_sec` /
`total_elapsed_sec`, clear `timer_start`, set status paused. -/
def onPause (o : OrderState) (t : Option TimerState) (now : Int) : OrderState × TimerState :=
  ({ o with
      status := OrderStatus.pausato,
      elapsed_sec := some (pauseElapsed o t now),
      total_elapsed_sec := some (pauseElapsed o t now),
      timer_start := none },
   { running := false, startedAt := none, elapsed := pauseElapsed o t now })

/-- `onResume`: restart the timer keeping the accumulated elapsed. -/
def onResume (o : OrderState) (t : Option TimerState) (now : Int) : OrderState × TimerState :=
  ({ o with status := OrderStatus.in_esecuzione, timer_start := some now },
   { running := true, startedAt := some now,
     elapsed := match t with | some tt => tt.elapsed | none => baseElapsedOf o })

/-- `advanceSize.trim() || null` / `advanceNotes.trim() || null`. -/
def trimOrNone (s : String) : Option String :=
  if s.trim = "" then none else some s.trim

/-- The mutation `saveAdvance` applies to the selected batch after the
packing validation passed: stamp the status and `status_changed_at`, and
either record or clear the packing fields. -/
def advanceApply (inp : AdvanceInput) (now : Int) (b : Batch) : Batch :=
  if inp.phase = AdvancePhase.pronti_consegna then
    { b with
      status := inp.phase.toBatchStatus, status_changed_at := some now,
      packed_qty := some inp.packed, packed_boxes := inp.boxes,
      packed_size := trimOrNone inp.size, packed_weight := inp.weight,
      packed_notes := trimOrNone inp.notes }
  else
    { b with
      status := inp.phase.toBatchStatus, status_changed_at := some now,
      packed_qty := some 0, packed_boxes := none, packed_size := none,
      packed_weight := none, packed_notes := none }

/-- `saveAdvance` of App.tsx: find the batch (silent return when absent),
reject (`alert` + return, hence no mutation) when moving into
`pronti_consegna` without `advancePacked > 0`, else write the updated batch
list. `none` models the no-mutation returns. -/
def saveAdvance (o : OrderState) (inp : AdvanceInput) (now : Int) : Option OrderState :=
  if findBatch o.batches inp.batchId = none then none
  else if inp.phase = AdvancePhase.pronti_consegna ∧ inp.packed ≤ 0 then none
  else some { o with batches := updateFirstBatch o.batches inp.batchId (advanceApply inp now) }

/-- `changeStatus`: admin dropdown writes `{ status, status_changed_at }`
only. -/
def changeStatus (o : OrderState) (s : OrderStatus) (now : Int) : OrderState :=
  { o with status := s, status_changed_at := some now }

/-- `hideOrder`: writes `{ hidden: true, deleted_at: serverTimestamp() }`. -/
def hideOrder (o : OrderState) (now : Int) : OrderState :=
  { o with hidden := true, deleted_at := some now }

/-- `restoreOrder`: writes `{ hidden: false }`. -/
def restoreOrder (o : OrderState) : OrderState :=
  { o with hidden := false }

/-- `qtyFinal` of `forceComplete`:
`typeof qtyOverride === 'number' && qtyOverride >= 0 ? qtyOverride
 : (richiesta > 0 ? richiesta : Number(row.qty_done || 0))`. -/
def forceQty (o : OrderState) (qtyOverride : Option Int) : Int :=
  match qtyOverride with
  | some q => if 0 ≤ q then q
      else if 0 < numOr0 o.qty_requested then numOr0 o.qty_requested else numOr0 o.qty_done
  | none => if 0 < numOr0 o.qty_requested then numOr0 o.qty_requested else numOr0 o.qty_done

/-- Text of the system audit note appended by `forceComplete`. -/
def forceText : String := "Forza conclusione"

/-- Operator name used for system audit notes. -/
def systemOperator : String := "SYSTEM"

/-- The system audit note appended by `forceComplete`. -/
def forceNote (now : Int) (qtyFinal : Int) : OrderNote :=
  { ts := now, operator := some systemOperator, text := forceText,
    step := none, pieces := some qtyFinal }

/-- `forceComplete(row, qtyOverride?)`: always succeeds; merged patch sets
status done, stamps timestamps, sets `forced_completed` and `qty_done`, and
appends the system note. No other field (batches included) is touched. -/
def forceComplete (o : OrderState) (qtyOverride : Option Int) (now : Int) : OrderState :=
  { o with
    status := OrderStatus.eseguito, status_changed_at := some now,
    last_done_at := some now, forced_completed := true,
    qty_done := some (forceQty o qtyOverride),
    notes_log := o.notes_log ++ [forceNote now (forceQty o qtyOverride)] }

/-- Text of the system audit note appended by `resetOrder`. -/
def resetText : String := "Azzera ordine (reset completo)"

/-- A system audit note with the given text and zero pieces. -/
def systemNote (t : String) (now : Int) : OrderNote :=
  { ts := now, operator := some systemOperator, text := t, step := none,
    pieces := some 0 }

/-- `resetOrder`: the full zeroing patch of the admin reset. -/
def resetOrder (o : OrderState) (now : Int) : OrderState :=
  { o with
    status := OrderStatus.da_iniziare, status_changed_at := some now,
    elapsed_sec := some 0, total_elapsed_sec := some 0, timer_start := none,
    qty_done := some 0, steps_progress := fun _ => 0, steps_time := fun _ => 0,
    packed_qty := some 0, packed_boxes := none, packed_size := none,
    packed_weight := none, packed_notes := none,
    last_operator := none, last_notes := none, last_step := none,
    last_pieces := none, last_duration_sec := none, last_done_at := none,
    notes_log := o.notes_log ++ [systemNote resetText now],
    forced_completed := false, batches := [] }

/-- Text of the system audit note appended by `deleteForever`. -/
def deleteText : String := "Eliminato definitivamente (soft-delete)"

/-- `deleteForever`: soft delete, keeps every production field. -/
def deleteForever (o : OrderState) (now : Int) : OrderState :=
  { o with
    hidden := true, deleted_permanently := true, deleted_at := some now,
    notes_log := o.notes_log ++ [systemNote deleteText now] }

/-- One operator/admin action on a single order, with the external inputs
(`now`, fresh batch id) it consumes. -/
inductive Op where
  | startEv (now : Int)
  | pauseEv (now : Int)
  | resumeEv (now : Int)
  | stopEv (inp : StopInput) (now : Int) (newBatchId : String)
  | advanceEv (inp : AdvanceInput) (now : Int)
  | statusEv (s : OrderStatus) (now : Int)
  | hideEv (now : Int)
  | restoreEv
  | resetEv (now : Int)
  | forceEv (q : Option Int) (now : Int)
  | deleteEv (now : Int)
  deriving DecidableEq

/-- Whether an action is the administrative force-completion. -/
def Op.isForce : Op → Bool
  | Op.forceEv _ _ => true
  | _ => false

/-- The zeroed timer entry written by `resetOrder`. -/
def zeroTimer : TimerState :=
  { running := false, startedAt := none, elapsed := 0 }

/-- Apply one action to (persisted order, local timer entry). Rejected
stops/advances leave the state unchanged, as in the source. -/
def applyOp (st : OrderState × Option TimerState) (op : Op) : OrderState × Option TimerState :=
  match op with
  | Op.startEv now => ((onStart st.1 now).1, some (onStart st.1 now).2)
  | Op.pauseEv now => ((onPause st.1 st.2 now).1, some (onPause st.1 st.2 now).2)
  | Op.resumeEv now => ((onResume st.1 st.2 now).1, some (onResume st.1 st.2 now).2)
  | Op.stopEv inp now bid => applyStop st inp now bid
  | Op.advanceEv inp now =>
    match saveAdvance st.1 inp now with
    | none => st
    | some o => (o, st.2)
  | Op.statusEv s now => (changeStatus st.1 s now, st.2)
  | Op.hideEv now => (hideOrder st.1 now, st.2)
  | Op.restoreEv => (restoreOrder st.1, st.2)
  | Op.resetEv now => (resetOrder st.1 now, some zeroTimer)
  | Op.forceEv q now => (forceComplete st.1 q now, st.2)
  | Op.deleteEv now => (deleteForever st.1 now, st.2)

/-- Apply a sequence of actions in order. -/
def applyOps (st : OrderState × Option TimerState) (l : List Op) : OrderState × Option TimerState :=
  l.foldl applyOp st

/-- One stop event: input, wall clock, fresh batch id. -/
structure StopEv where
  inp : StopInput
  now : Int
  newBatchId : String

/-- Apply a sequence of stop events in order (a rejected one changes
nothing). -/
def applyStops (st : OrderState × Option TimerState) (l : List StopEv) : OrderState × Option TimerState :=
  l.foldl (fun s e => applyStop s e.inp e.now e.newBatchId) st

/-- Timer bookkeeping invariant of the data model:
`timer_started_at` non-null iff running. -/
def timerInv (o : OrderState) : Prop :=
  o.timer_start ≠ none ↔ o.status = OrderStatus.in_esecuzione

/-- Batch-ledger invariant: batch quantities never over-count `qty_done`,
and `qty_done` never exceeds the value `computeFullyDone` would derive. -/
def sumInv (o : OrderState) : Prop :=
  batchSum o.batches ≤ numOr0 o.qty_done ∧
    numOr0 o.qty_done ≤ computeFullyDone o.steps_count o.steps_progress 0

/-- Exact batch-ledger accounting: batch quantities add up to `qty_done`. -/
def sumEq (o : OrderState) : Prop :=
  batchSum o.batches = numOr0 o.qty_done ∧
    numOr0 o.qty_done ≤ computeFullyDone o.steps_count o.steps_progress 0

/-- The fully-done computation as the specification words it (claim C1):
`max(previous_fully_done, min over steps 1..n)`, 0 when `n ≤ 0`.  This
definition follows the spec text, for comparison with `computeFullyDone`
as the source calls it (`defaultZero = 0`). -/
def specFullyDoneClaim (prevFully : Int) (stepsCount : Int) (stepsProgress : Int → Int) : Int :=
  if stepsCount ≤ 0 then 0
  else max prevFully (stepMin stepsProgress stepsCount.toNat)

/-- Concrete fresh order, as the import path creates one: all counters zero,
`status = da_iniziare`, empty logs and batch list. -/
def baseOrder : OrderState :=
  { order_number := "A1", customer := "", product_code := "P1", description := "",
    ml := none, qty_requested := none, qty_in_oven := none,
    steps_count := 0, steps_progress := fun _ => 0, steps_time := fun _ => 0,
    qty_done := some 0, status := OrderStatus.da_iniziare,
    elapsed_sec := none, total_elapsed_sec := some 0, timer_start := none,
    last_operator := none, last_notes := none, last_step := none,
    last_pieces := none, last_duration_sec := none,
    notes_log := [], ops_log := [], packed_qty := some 0, packed_boxes := none,
    packed_size := none, packed_weight := none, packed_notes := none,
    batches := [], hidden := false, forced_completed := false,
    deleted_at := none, deleted_permanently := false, created_at := some 0,
    last_done_at := none, status_changed_at := none }

/-- One-step order whose `qty_done` has been raised to 5 (for example by a
force-completion) while its step ledger is still empty. -/
def c1Order : OrderState := { baseOrder with steps_count := 1, qty_done := some 5 }

/-- Stop recording 2 pieces on step 1. -/
def c1Inp : StopInput := { step := 1, pieces := 2, operator := "anna", notes := "" }

/-- Two-step order for the C1 witness. -/
def c1wOrder : OrderState := { baseOrder with steps_count := 2 }

/-- Stop recording 3 pieces on step 1 of a two-step order. -/
def c1wInp : StopInput := { step := 1, pieces := 3, operator := "anna", notes := "" }

/-- One-step order carrying 5 checkpointed elapsed seconds. -/
def c2Order : OrderState :=
  { baseOrder with steps_count := 1, total_elapsed_sec := none, elapsed_sec := some 5 }

/-- Stop recording 1 piece on step 1. -/
def c2Inp : StopInput := { step := 1, pieces := 1, operator := "anna", notes := "" }

/-- One-step order requesting 1 unit, for the C2 witness. -/
def c2wOrder : OrderState := { baseOrder with steps_count := 1, qty_requested := some 1 }

/-- One-step order for the C3 witness. -/
def c3Order : OrderState := { baseOrder with steps_count := 1 }

/-- Stop recording 4 pieces on step 1. -/
def c3Inp : StopInput := { step := 1, pieces := 4, operator := "anna", notes := "" }

/-- Stop with zero pieces: must be rejected. -/
def c4Inp : StopInput := { step := 1, pieces := 0, operator := "anna", notes := "" }

/-- One-step order requesting 10 units. -/
def c5Order : OrderState := { baseOrder with steps_count := 1, qty_requested := some 10 }

/-- Stop recording 5 pieces on step 1. -/
def c5Stop : StopInput := { step := 1, pieces := 5, operator := "anna", notes := "" }

/-- A successful stop followed by `forceComplete` with override 0. -/
def c5Ops : List Op := [Op.stopEv c5Stop 0 "w5a", Op.forceEv (some 0) 1]

/-- A force-free action sequence for the C5 witness. -/
def c5wOps : List Op := [Op.stopEv c5Stop 0 "w5b", Op.resetEv 2, Op.stopEv c5Stop 3 "w5c"]

/-- A stop-event sequence for the C5 witness. -/
def c5wStops : List StopEv := [{ inp := c5Stop, now := 0, newBatchId := "w5d" }]

/-- One-step order for the C6 witness. -/
def c6Order : OrderState := { baseOrder with steps_count := 1 }

/-- First stop of the C6 witness: 2 pieces on step 1. -/
def c6Inp1 : StopInput := { step := 1, pieces := 2, operator := "anna", notes := "" }

/-- Second stop of the C6 witness: 3 pieces on step 1. -/
def c6Inp2 : StopInput := { step := 1, pieces := 3, operator := "bruno", notes := "" }

/-- An existing partial batch of 5 units. -/
def c7Batch : Batch :=
  { id := "bat1", qty := 5, status := BatchStatus.parziale, created_at := 0,
    status_changed_at := none, packed_qty := none, packed_boxes := none,
    packed_size := none, packed_weight := none, packed_notes := none }

/-- Order holding one partial batch. -/
def c7Order : OrderState := { baseOrder with batches := [c7Batch] }

/-- Advance to ready-for-delivery with `packed = 0`: must be rejected. -/
def c7Inp : AdvanceInput :=
  { batchId := "bat1", phase := AdvancePhase.pronti_consegna, packed := 0,
    boxes := none, size := "", weight := none, notes := "" }

/-- Advance to ready-for-delivery with `packed = 4`: must succeed. -/
def c7Inp2 : AdvanceInput :=
  { batchId := "bat1", phase := AdvancePhase.pronti_consegna, packed := 4,
    boxes := none, size := "", weight := none, notes := "" }

/-- Order with 10 requested and 3 fully done. -/
def c9Order : OrderState := { baseOrder with qty_requested := some 10, qty_done := some 3 }

/-- Order with an explicit `qty_requested = 0` and `qty_done = 0`. -/
def c9zOrder : OrderState := { baseOrder with qty_requested := some 0 }

theorem confirmStop_elim (o : OrderState) (t : Option TimerState) (inp : StopInput)
    (now : Int) (bid : String) (r : OrderState × TimerState)
    (h : confirmStop o t inp now bid = some r) :
    1 ≤ inp.step ∧ 0 < inp.pieces ∧ inp.operator ≠ "" ∧
      r = (stopOrder o t inp now bid, stopTimer o t now) := by
  unfold confirmStop at h
  split_ifs at h with h1 h2 h3
  exact ⟨by omega, by omega, by assumption, ((Option.some.injEq _ _).mp h).symm⟩

theorem stepMin_mono (p q : Int → Int) (h : ∀ j, p j ≤ q j) :
    ∀ n, stepMin p n ≤ stepMin q n
  | 0 => le_refl _
  | 1 => h 1
  | n + 2 => min_le_min (stepMin_mono p q h (n + 1)) (h (Int.ofNat (n + 2)))

theorem computeFullyDone_mono (sc : Int) (p q : Int → Int) (h : ∀ j, p j ≤ q j) :
    computeFullyDone sc p 0 ≤ computeFullyDone sc q 0 := by
  unfold computeFullyDone
  split_ifs
  · exact le_refl _
  · exact max_le_max (le_refl _) (stepMin_mono p q h sc.toNat)

theorem computeFullyDone_nonneg (sc : Int) (p : Int → Int) :
    0 ≤ computeFullyDone sc p 0 := by
  unfold computeFullyDone
  split_ifs
  · exact le_refl _
  · exact le_max_left _ _

theorem stopProg_pointwise (o : OrderState) (inp : StopInput) (hp : 0 < inp.pieces) :
    ∀ j, o.steps_progress j ≤ stopProg o inp j := by
  intro j
  unfold stopProg
  by_cases hj : j = inp.step
  · subst hj
    simp only [if_pos rfl]
    omega
  · simp [hj]

theorem stopNewFully_ge (o : OrderState) (inp : StopInput) (hp : 0 < inp.pieces) :
    computeFullyDone o.steps_count o.steps_progress 0 ≤ stopNewFully o inp :=
  computeFullyDone_mono o.steps_count o.steps_progress (stopProg o inp)
    (stopProg_pointwise o inp hp)

theorem batchSum_append (bs : List Batch) (b : Batch) :
    batchSum (bs ++ [b]) = batchSum bs + b.qty := by
  induction bs with
  | nil => simp [batchSum]
  | cons x xs ih =>
    simp only [List.cons_append, batchSum, List.foldr_cons] at ih ⊢
    omega

theorem batchSum_stopBatches (o : OrderState) (inp : StopInput) (now : Int) (bid : String) :
    batchSum (stopBatches o inp now bid) = batchSum o.batches + stopDelta o inp := by
  unfold stopBatches
  split_ifs with h
  · rw [batchSum_append]
    rfl
  · have h0 : 0 ≤ stopDelta o inp := le_max_left _ _
    have hz : stopDelta o inp = 0 := le_antisymm (not_lt.mp h) h0
    rw [hz, add_zero]

theorem batchSum_updateFirst (bs : List Batch) (bid : String) (f : Batch → Batch)
    (hf : ∀ b, (f b).qty = b.qty) :
    batchSum (updateFirstBatch bs bid f) = batchSum bs := by
  induction bs with
  | nil => rfl
  | cons x xs ih =>
    unfold updateFirstBatch
    by_cases hx : x.id = bid
    · simp [hx, batchSum, hf]
    · simp only [if_neg hx, batchSum, List.foldr_cons] at ih ⊢
      omega

theorem map_idqty_updateFirst (bs : List Batch) (bid : String) (f : Batch → Batch)
    (hfq : ∀ b, (f b).qty = b.qty) (hfi : ∀ b, (f b).id = b.id) :
    List.map (fun b => (b.id, b.qty)) (updateFirstBatch bs bid f) =
      List.map (fun b => (b.id, b.qty)) bs := by
  induction bs with
  | nil => rfl
  | cons x xs ih =>
    unfold updateFirstBatch
    by_cases hx : x.id = bid
    · simp [hx, hfq, hfi]
    · simp [hx, ih]

theorem findBatch_updateFirst (bs : List Batch) (bid : String) (f : Batch → Batch)
    (hfi : ∀ b, (f b).id = b.id) :
    findBatch (updateFirstBatch bs bid f) bid = (findBatch bs bid).map f := by
  induction bs with
  | nil => rfl
  | cons x xs ih =>
    unfold updateFirstBatch
    by_cases hx : x.id = bid
    · simp [findBatch, hx, hfi]
    · simp [findBatch, hx, ih]

theorem advanceApply_id (inp : AdvanceInput) (now : Int) (b : Batch) :
    (advanceApply inp now b).id = b.id := by
  unfold advanceApply
  split_ifs <;> rfl

theorem advanceApply_qty (inp : AdvanceInput) (now : Int) (b : Batch) :
    (advanceApply inp now b).qty = b.qty := by
  unfold advanceApply
  split_ifs <;> rfl

theorem saveAdvance_elim (o : OrderState) (inp : AdvanceInput) (now : Int) (o₂ : OrderState)
    (h : saveAdvance o inp now = some o₂) :
    o₂ = { o with batches := updateFirstBatch o.batches inp.batchId (advanceApply inp now) } ∧
      (inp.phase = AdvancePhase.pronti_consegna → 0 < inp.packed) := by
  unfold saveAdvance at h
  split_ifs at h with hf hcond
  push_neg at hcond
  refine ⟨((Option.some.injEq _ _).mp h).symm, fun hph => ?_⟩
  have := hcond hph
  omega

theorem numOr0_some (x : Int) : numOr0 (some x) = x := rfl

theorem sumInv_stopOrder (o : OrderState) (t : Option TimerState) (inp : StopInput)
    (now : Int) (bid : String) (hp : 0 < inp.pieces) (hK : sumInv o) :
    sumInv (stopOrder o t inp now bid) := by
  unfold sumInv at hK ⊢
  obtain ⟨h1, h2⟩ := hK
  have hmono := stopNewFully_ge o inp hp
  have hprev : numOr0 o.qty_done ≤ stopNewFully o inp := le_trans h2 hmono
  have hd : stopDelta o inp = stopNewFully o inp - numOr0 o.qty_done :=
    max_eq_right (by omega)
  simp only [stopOrder]
  constructor
  · rw [batchSum_stopBatches, hd, numOr0_some]
    omega
  · rw [numOr0_some]
    exact le_refl _

theorem sumEq_stopOrder (o : OrderState) (t : Option TimerState) (inp : StopInput)
    (now : Int) (bid : String) (hp : 0 < inp.pieces) (hK : sumEq o) :
    sumEq (stopOrder o t inp now bid) := by
  unfold sumEq at hK ⊢
  obtain ⟨h1, h2⟩ := hK
  have hmono := stopNewFully_ge o inp hp
  have hprev : numOr0 o.qty_done ≤ stopNewFully o inp := le_trans h2 hmono
  have hd : stopDelta o inp = stopNewFully o inp - numOr0 o.qty_done :=
    max_eq_right (by omega)
  simp only [stopOrder]
  constructor
  · rw [batchSum_stopBatches, hd, numOr0_some]
    omega
  · rw [numOr0_some]
    exact le_refl _

theorem sumInv_applyStop (st : OrderState × Option TimerState) (inp : StopInput)
    (now : Int) (bid : String) (hK : sumInv st.1) : sumInv (applyStop st inp now bid).1 := by
  unfold applyStop
  cases h : confirmStop st.1 st.2 inp now bid with
  | none => simpa using hK
  | some r =>
    obtain ⟨_, hp, _, hr⟩ := confirmStop_elim _ _ _ _ _ _ h
    subst hr
    simpa using sumInv_stopOrder st.1 st.2 inp now bid hp hK

theorem sumEq_applyStop (st : OrderState × Option TimerState) (inp : StopInput)
    (now : Int) (bid : String) (hK : sumEq st.1) : sumEq (applyStop st inp now bid).1 := by
  unfold applyStop
  cases h : confirmStop st.1 st.2 inp now bid with
  | none => simpa using hK
  | some r =>
    obtain ⟨_, hp, _, hr⟩ := confirmStop_elim _ _ _ _ _ _ h
    subst hr
    simpa using sumEq_stopOrder st.1 st.2 inp now bid hp hK

theorem sumInv_saveAdvance (o : OrderState) (inp : AdvanceInput) (now : Int) (o₂ : OrderState)
    (h : saveAdvance o inp now = some o₂) (hK : sumInv o) : sumInv o₂ := by
  obtain ⟨hb, _⟩ := saveAdvance_elim o inp now o₂ h
  subst hb
  unfold sumInv at hK ⊢
  simp only at hK ⊢
  rwa [batchSum_updateFirst _ _ _ (advanceApply_qty inp now)]

theorem sumInv_applyOp (st : OrderState × Option TimerState) (op : Op)
    (hop : op.isForce = false) (hK : sumInv st.1) : sumInv (applyOp st op).1 := by
  cases op with
  | startEv now => simpa only [applyOp, onStart, sumInv] using hK
  | pauseEv now => simpa only [applyOp, onPause, sumInv] using hK
  | resumeEv now => simpa only [applyOp, onResume, sumInv] using hK
  | stopEv inp now bid => exact sumInv_applyStop st inp now bid hK
  | advanceEv inp now =>
    simp only [applyOp]
    cases h : saveAdvance st.1 inp now with
    | none => simpa using hK
    | some o₂ => simpa using sumInv_saveAdvance st.1 inp now o₂ h hK
  | statusEv s now => simpa only [applyOp, changeStatus, sumInv] using hK
  | hideEv now => simpa only [applyOp, hideOrder, sumInv] using hK
  | restoreEv => simpa only [applyOp, restoreOrder, sumInv] using hK
  | resetEv now =>
    unfold applyOp resetOrder sumInv
    refine ⟨?_, ?_⟩
    · simp [batchSum, numOr0]
    · simp only [numOr0, Option.getD_some]
      exact computeFullyDone_nonneg _ _
  | forceEv q now => simp [Op.isForce] at hop
  | deleteEv now => simpa only [applyOp, deleteForever, sumInv] using hK

theorem sumInv_applyOps (l : List Op) : ∀ st : OrderState × Option TimerState,
    (∀ op ∈ l, op.isForce = false) → sumInv st.1 → sumInv (applyOps st l).1 := by
  induction l with
  | nil => intro st _ hK; simpa [applyOps] using hK
  | cons op rest ih =>
    intro st hl hK
    have h1 : op.isForce = false := hl op (List.mem_cons_self op rest)
    have h2 := sumInv_applyOp st op h1 hK
    have h3 : ∀ x ∈ rest, x.isForce = false := fun x hx => hl x (List.mem_cons_of_mem op hx)
    simpa only [applyOps, List.foldl_cons] using ih (applyOp st op) h3 h2

theorem sumEq_applyStops (l : List StopEv) : ∀ st : OrderState × Option TimerState,
    sumEq st.1 → sumEq (applyStops st l).1 := by
  induction l with
  | nil => intro st hK; simpa [applyStops] using hK
  | cons e rest ih =>
    intro st hK
    have h2 := sumEq_applyStop st e.inp e.now e.newBatchId hK
    simpa only [applyStops, List.foldl_cons] using ih (applyStop st e.inp e.now e.newBatchId) h2

/-- Claim C1, counterexample: the claim states that the fully-done quantity
written back by a stop equals `max(previous fully_done_qty, min over steps)`.
On a one-step order with previous `qty_done = 5` whose updated step ledger
has minimum 2, `confirmStop` writes `qty_done = 2` (the source passes
`defaultZero = 0`, not the previous value, to `computeFullyDone`), while the
claimed value is `max(5, 2) = 5`. -/
theorem C1_counterexample :
    ((confirmStop c1Order none c1Inp 0 "b1").map (fun r => r.1.qty_done)) = some (some 2) ∧
      specFullyDoneClaim (numOr0 c1Order.qty_done) c1Order.steps_count (stopProg c1Order c1Inp) = 5 ∧
      (2 : Int) ≠ 5 :=
  ⟨by decide, by decide, by decide⟩

/-- Claim C1 (amended): for every stop event that passes validation on an
order with step count `n`, the fully-done quantity written back equals
`max(0, min over steps 1..n of the updated cumulative step_progress)` —
the previous `fully_done_qty` is not consulted — and equals 0 whenever
`n ≤ 0`. -/
theorem C1_amended_fully_done (o : OrderState) (t : Option TimerState) (inp : StopInput)
    (now : Int) (bid : String) (r : OrderState × TimerState)
    (h : confirmStop o t inp now bid = some r) :
    r.1.qty_done =
      some (if o.steps_count ≤ 0 then 0
        else max 0 (stepMin (stopProg o inp) o.steps_count.toNat)) := by
  obtain ⟨_, _, _, hr⟩ := confirmStop_elim o t inp now bid r h
  subst hr
  rfl

/-- Witness for the amended C1 at a concrete validated stop. -/
theorem C1_amended_fully_done_witness :
    (stopOrder c1wOrder none c1wInp 0 "w1", stopTimer c1wOrder none 0).1.qty_done =
      some (if c1wOrder.steps_count ≤ 0 then 0
        else max 0 (stepMin (stopProg c1wOrder c1wInp) c1wOrder.steps_count.toNat)) :=
  C1_amended_fully_done c1wOrder none c1wInp 0 "w1" _ rfl

/-- Claim C2, counterexample: the claim states that after every validated
stop the persisted order has `elapsed_sec = 0`.  On an order carrying 5
checkpointed seconds, the stop persists `elapsed_sec = 5` (the source writes
`totalElapsed`, the accumulated time, not 0). -/
theorem C2_counterexample :
    ((confirmStop c2Order none c2Inp 0 "b2").map (fun r => r.1.elapsed_sec)) = some (some 5) ∧
      some (5 : Int) ≠ some (0 : Int) :=
  ⟨by decide, by decide⟩

/-- Claim C2 (amended): after every stop that passes validation, the
persisted order has `elapsed_sec = total_elapsed_sec = max(0, carried
elapsed + running-segment delta)` (not 0), `timer_start = null`, and status
`eseguito` iff `requested_qty > 0` and the new fully-done quantity reaches
it, else `da_iniziare`. -/
theorem C2_amended_stop_state (o : OrderState) (t : Option TimerState) (inp : StopInput)
    (now : Int) (bid : String) (r : OrderState × TimerState)
    (h : confirmStop o t inp now bid = some r) :
    r.1.elapsed_sec = some (max 0 (baseElapsedOf o + stopExtraRun t now)) ∧
    r.1.total_elapsed_sec = some (max 0 (baseElapsedOf o + stopExtraRun t now)) ∧
    r.1.timer_start = none ∧
    r.1.status = (if 0 < numOr0 o.qty_requested ∧ numOr0 o.qty_requested ≤ stopNewFully o inp
      then OrderStatus.eseguito else OrderStatus.da_iniziare) := by
  obtain ⟨_, _, _, hr⟩ := confirmStop_elim o t inp now bid r h
  subst hr
  exact ⟨rfl, rfl, rfl, rfl⟩

/-- Witness for the amended C2 at a concrete validated stop. -/
theorem C2_amended_stop_state_witness :
    (stopOrder c2wOrder none c2Inp 0 "w2", stopTimer c2wOrder none 0).1.timer_start = none :=
  (C2_amended_stop_state c2wOrder none c2Inp 0 "w2" _ rfl).2.2.1

/-- Claim C3: every successful stop appends exactly one new batch with
`qty = new_fully_done - previous fully_done_qty` and status `parziale` when
that delta is positive, appends nothing when the delta is not positive, and
no operation merges or splits existing batches (`saveAdvance` preserves the
id and qty of every batch). -/
theorem C3_stop_batches (o : OrderState) (t : Option TimerState) (inp : StopInput)
    (now : Int) (bid : String) (r : OrderState × TimerState)
    (h : confirmStop o t inp now bid = some r) :
    (0 < stopNewFully o inp - numOr0 o.qty_done →
      r.1.batches = o.batches ++
        [{ id := bid, qty := stopNewFully o inp - numOr0 o.qty_done,
           status := BatchStatus.parziale, created_at := now, status_changed_at := none,
           packed_qty := none, packed_boxes := none, packed_size := none,
           packed_weight := none, packed_notes := none }]) ∧
    (stopNewFully o inp - numOr0 o.qty_done ≤ 0 → r.1.batches = o.batches) ∧
    (∀ ainp anow o₂, saveAdvance o ainp anow = some o₂ →
      List.map (fun b => (b.id, b.qty)) o₂.batches =
        List.map (fun b => (b.id, b.qty)) o.batches) := by
  obtain ⟨_, _, _, hr⟩ := confirmStop_elim o t inp now bid r h
  subst hr
  refine ⟨?_, ?_, ?_⟩
  · intro hpos
    have hd : stopDelta o inp = stopNewFully o inp - numOr0 o.qty_done :=
      max_eq_right (by omega)
    show stopBatches o inp now bid = _
    unfold stopBatches
    rw [if_pos (by rw [hd]; omega)]
    unfold stopBatch
    rw [hd]
  · intro hle
    have hd : stopDelta o inp = 0 := max_eq_left hle
    show stopBatches o inp now bid = o.batches
    unfold stopBatches
    rw [if_neg (by rw [hd]; exact lt_irrefl 0)]
  · intro ainp anow o₂ hadv
    obtain ⟨hb, _⟩ := saveAdvance_elim o ainp anow o₂ hadv
    subst hb
    exact map_idqty_updateFirst o.batches ainp.batchId _
      (advanceApply_qty ainp anow) (advanceApply_id ainp anow)

/-- Witness for C3 at a concrete stop whose completion delta is 4. -/
theorem C3_stop_batches_witness :
    (stopOrder c3Order none c3Inp 0 "w3", stopTimer c3Order none 0).1.batches =
      c3Order.batches ++
        [{ id := "w3", qty := stopNewFully c3Order c3Inp - numOr0 c3Order.qty_done,
           status := BatchStatus.parziale, created_at := 0, status_changed_at := none,
           packed_qty := none, packed_boxes := none, packed_size := none,
           packed_weight := none, packed_notes := none }] :=
  (C3_stop_batches c3Order none c3Inp 0 "w3" _ rfl).1 (by decide)

/-- Claim C4: a stop request with `pieces ≤ 0`, or a step below 1, or a step
above `step_count` when `step_count > 0`, or an empty operator, is rejected:
`confirmStop` returns `none` and neither the order document nor the local
state changes. -/
theorem C4_invalid_stop_rejected (o : OrderState) (t : Option TimerState) (inp : StopInput)
    (now : Int) (bid : String)
    (h : inp.pieces ≤ 0 ∨ inp.step < 1 ∨ (0 < o.steps_count ∧ o.steps_count < inp.step) ∨
      inp.operator = "") :
    confirmStop o t inp now bid = none ∧ applyStop (o, t) inp now bid = (o, t) := by
  have hn : confirmStop o t inp now bid = none := by
    unfold confirmStop
    split_ifs with h1 h2 h3
    · rfl
    · rfl
    · rfl
    · exfalso
      rcases h with h | h | h | h
      · exact h2 h
      · exact h1 (Or.inl h)
      · exact h1 (Or.inr h)
      · exact h3 h
  refine ⟨hn, ?_⟩
  unfold applyStop
  rw [hn]

/-- Witness for C4: a stop with zero pieces is rejected with no change. -/
theorem C4_invalid_stop_rejected_witness :
    confirmStop baseOrder none c4Inp 0 "w4" = none ∧
      applyStop (baseOrder, none) c4Inp 0 "w4" = (baseOrder, none) :=
  C4_invalid_stop_rejected baseOrder none c4Inp 0 "w4" (Or.inl (by decide))

/-- Claim C5, counterexample: the claim states `sum(batch.qty) ≤
fully_done_qty` after every operation.  Starting from a fresh one-step order,
a successful stop of 5 pieces (sum = qty_done = 5) followed by
`forceComplete` with override 0 leaves the batch sum at 5 while
`qty_done = 0`, violating the inequality. -/
theorem C5_counterexample :
    batchSum (applyOps (c5Order, none) c5Ops).1.batches = 5 ∧
      numOr0 (applyOps (c5Order, none) c5Ops).1.qty_done = 0 ∧
      ¬ ((5 : Int) ≤ 0) :=
  ⟨by decide, by decide, by decide⟩

/-- Claim C5 (amended): starting from a fresh order (`fully_done_qty = 0`,
empty batch list), `sum(batch.qty) ≤ fully_done_qty` holds after every
sequence of operations that does not contain `forceComplete` (which can set
`fully_done_qty` below the batch total), and equality holds after any
sequence of stop events. -/
theorem C5_amended_batch_ledger (o : OrderState) (t : Option TimerState)
    (h0 : numOr0 o.qty_done = 0) (hb : o.batches = []) :
    (∀ l : List Op, (∀ op ∈ l, op.isForce = false) →
      batchSum (applyOps (o, t) l).1.batches ≤ numOr0 (applyOps (o, t) l).1.qty_done) ∧
    (∀ l : List StopEv,
      batchSum (applyStops (o, t) l).1.batches = numOr0 (applyStops (o, t) l).1.qty_done) := by
  have hK : sumInv o := by
    unfold sumInv
    rw [hb, h0]
    exact ⟨le_refl 0, computeFullyDone_nonneg _ _⟩
  have hE : sumEq o := by
    unfold sumEq
    rw [hb, h0]
    exact ⟨rfl, computeFullyDone_nonneg _ _⟩
  constructor
  · intro l hl
    exact (sumInv_applyOps l (o, t) hl hK).1
  · intro l
    exact (sumEq_applyStops l (o, t) hE).1

/-- Witness for the amended C5 on concrete force-free sequences. -/
theorem C5_amended_batch_ledger_witness :
    batchSum (applyOps (c5Order, none) c5wOps).1.batches ≤
      numOr0 (applyOps (c5Order, none) c5wOps).1.qty_done ∧
    batchSum (applyStops (c5Order, none) c5wStops).1.batches =
      numOr0 (applyStops (c5Order, none) c5wStops).1.qty_done :=
  ⟨(C5_amended_batch_ledger c5Order none (by decide) (by decide)).1 c5wOps (by decide),
   (C5_amended_batch_ledger c5Order none (by decide) (by decide)).2 c5wStops⟩

/-- Claim C6: across any two consecutive successful stop events on the same
order, the persisted `qty_done` never decreases: the step ledger only grows,
`computeFullyDone` is monotone in it, and the step count is unchanged by a
stop. -/
theorem C6_qty_done_monotone (o : OrderState) (t₁ t₂ : Option TimerState)
    (i₁ i₂ : StopInput) (n₁ n₂ : Int) (b₁ b₂ : String) (r₁ r₂ : OrderState × TimerState)
    (h₁ : confirmStop o t₁ i₁ n₁ b₁ = some r₁)
    (h₂ : confirmStop r₁.1 t₂ i₂ n₂ b₂ = some r₂) :
    numOr0 r₁.1.qty_done ≤ numOr0 r₂.1.qty_done := by
  obtain ⟨_, hp₁, _, hr₁⟩ := confirmStop_elim _ _ _ _ _ _ h₁
  subst hr₁
  obtain ⟨_, hp₂, _, hr₂⟩ := confirmStop_elim _ _ _ _ _ _ h₂
  subst hr₂
  show stopNewFully o i₁ ≤ stopNewFully (stopOrder o t₁ i₁ n₁ b₁) i₂
  exact stopNewFully_ge (stopOrder o t₁ i₁ n₁ b₁) i₂ hp₂

/-- Witness for C6: two concrete consecutive successful stops. -/
theorem C6_qty_done_monotone_witness :
    numOr0 (stopOrder c6Order none c6Inp1 0 "w6a", stopTimer c6Order none 0).1.qty_done ≤
      numOr0 (stopOrder (stopOrder c6Order none c6Inp1 0 "w6a", stopTimer c6Order none 0).1
          none c6Inp2 1 "w6b",
        stopTimer (stopOrder c6Order none c6Inp1 0 "w6a", stopTimer c6Order none 0).1
          none 1).1.qty_done :=
  C6_qty_done_monotone c6Order none none c6Inp1 c6Inp2 0 1 "w6a" "w6b" _ _ rfl rfl

/-- Claim C7: advancing a batch into `pronti_consegna` is rejected with no
mutation unless the packed quantity is positive; a successful advance
replaces only the selected batch, stamping `status_changed_at` and the new
phase, recording the packing fields when moving into `pronti_consegna` and
clearing them (`packed_qty = 0`, others null) for any other phase. -/
theorem C7_advance_packing (o : OrderState) (inp : AdvanceInput) (now : Int) :
    (inp.phase = AdvancePhase.pronti_consegna → inp.packed ≤ 0 →
      saveAdvance o inp now = none) ∧
    (∀ o₂, saveAdvance o inp now = some o₂ →
      o₂.batches = updateFirstBatch o.batches inp.batchId (advanceApply inp now) ∧
      (inp.phase = AdvancePhase.pronti_consegna → 0 < inp.packed) ∧
      (∀ b, findBatch o.batches inp.batchId = some b →
        findBatch o₂.batches inp.batchId = some (advanceApply inp now b))) ∧
    (∀ b, (advanceApply inp now b).status_changed_at = some now ∧
      (advanceApply inp now b).status = inp.phase.toBatchStatus ∧
      (inp.phase = AdvancePhase.pronti_consegna →
        (advanceApply inp now b).packed_qty = some inp.packed) ∧
      (inp.phase ≠ AdvancePhase.pronti_consegna →
        (advanceApply inp now b).packed_qty = some 0 ∧
        (advanceApply inp now b).packed_boxes = none ∧
        (advanceApply inp now b).packed_size = none ∧
        (advanceApply inp now b).packed_weight = none ∧
        (advanceApply inp now b).packed_notes = none)) := by
  refine ⟨?_, ?_, ?_⟩
  · intro hph hpk
    unfold saveAdvance
    split_ifs with hf hcond
    · rfl
    · rfl
    · exact absurd ⟨hph, hpk⟩ hcond
  · intro o₂ h
    obtain ⟨hb, hpk⟩ := saveAdvance_elim o inp now o₂ h
    subst hb
    refine ⟨rfl, hpk, fun b hfb => ?_⟩
    show findBatch (updateFirstBatch o.batches inp.batchId (advanceApply inp now)) inp.batchId = _
    rw [findBatch_updateFirst o.batches inp.batchId _ (advanceApply_id inp now), hfb]
    rfl
  · intro b
    unfold advanceApply
    by_cases hph : inp.phase = AdvancePhase.pronti_consegna
    · rw [if_pos hph]
      exact ⟨rfl, rfl, fun _ => rfl, fun hn => absurd hph hn⟩
    · rw [if_neg hph]
      exact ⟨rfl, rfl, fun hc => absurd hc hph, fun _ => ⟨rfl, rfl, rfl, rfl, rfl⟩⟩

/-- Witness for C7: a zero-packed advance into `pronti_consegna` is
rejected, and a positive one records the packed quantity. -/
theorem C7_advance_packing_witness :
    saveAdvance c7Order c7Inp 3 = none ∧
      (advanceApply c7Inp2 3 c7Batch).packed_qty = some 4 :=
  ⟨(C7_advance_packing c7Order c7Inp 3).1 rfl (by decide),
   ((C7_advance_packing c7Order c7Inp2 3).2.2 c7Batch).2.2.1 rfl⟩

/-- Claim C8, counterexample: the claim states that after every operation,
`timer_start` is non-null iff the status is `in_esecuzione`.  The admin
`changeStatus` writes only `status` and `status_changed_at`: switching a
stopped order to `in_esecuzione` leaves `timer_start = null`, breaking the
equivalence. -/
theorem C8_counterexample :
    timerInv baseOrder ∧
      (changeStatus baseOrder OrderStatus.in_esecuzione 0).status = OrderStatus.in_esecuzione ∧
      (changeStatus baseOrder OrderStatus.in_esecuzione 0).timer_start = none ∧
      ¬ timerInv (changeStatus baseOrder OrderStatus.in_esecuzione 0) := by
  refine ⟨?_, rfl, rfl, ?_⟩
  · unfold timerInv
    decide
  · unfold timerInv
    decide

/-- Claim C8 (amended): `timer_start` non-null iff status `in_esecuzione` is
established unconditionally by start, pause, resume, validated stop, and
reset, and preserved by hide, restore, and batch advancement; `changeStatus`
and `forceComplete` do not update `timer_start` and can break it. -/
theorem C8_amended_timer_invariant :
    (∀ (o : OrderState) (now : Int), timerInv (onStart o now).1) ∧
    (∀ (o : OrderState) (t : Option TimerState) (now : Int), timerInv (onPause o t now).1) ∧
    (∀ (o : OrderState) (t : Option TimerState) (now : Int), timerInv (onResume o t now).1) ∧
    (∀ (o : OrderState) (t : Option TimerState) (inp : StopInput) (now : Int) (bid : String)
      (r : OrderState × TimerState), confirmStop o t inp now bid = some r → timerInv r.1) ∧
    (∀ (o : OrderState) (now : Int), timerInv (resetOrder o now)) ∧
    (∀ (o : OrderState) (now : Int), timerInv o → timerInv (hideOrder o now)) ∧
    (∀ (o : OrderState), timerInv o → timerInv (restoreOrder o)) ∧
    (∀ (o : OrderState) (inp : AdvanceInput) (now : Int) (o₂ : OrderState),
      saveAdvance o inp now = some o₂ → timerInv o → timerInv o₂) := by
  refine ⟨?_, ?_, ?_, ?_, ?_, ?_, ?_, ?_⟩
  · intro o now
    simp [timerInv, onStart]
  · intro o t now
    simp [timerInv, onPause]
  · intro o t now
    simp [timerInv, onResume]
  · intro o t inp now bid r h
    obtain ⟨_, _, _, hr⟩ := confirmStop_elim o t inp now bid r h
    subst hr
    unfold timerInv
    simp only [stopOrder]
    split_ifs <;> simp
  · intro o now
    simp [timerInv, resetOrder]
  · intro o now h
    unfold timerInv at h ⊢
    simpa [hideOrder] using h
  · intro o h
    unfold timerInv at h ⊢
    simpa [restoreOrder] using h
  · intro o inp now o₂ hadv h
    obtain ⟨hb, _⟩ := saveAdvance_elim o inp now o₂ hadv
    subst hb
    unfold timerInv at h ⊢
    simpa using h

/-- Witness for the amended C8: concrete start and hide both satisfy the
timer invariant. -/
theorem C8_amended_timer_invariant_witness :
    timerInv (onStart baseOrder 0).1 ∧ timerInv (hideOrder baseOrder 0) :=
  ⟨C8_amended_timer_invariant.1 baseOrder 0,
   C8_amended_timer_invariant.2.2.2.2.2.1 baseOrder 0 (by unfold timerInv; decide)⟩

/-- Claim C9, counterexample: the claim states `fully_done_qty` is set to
`qtyOverride` whenever it is provided.  With a provided override of `-1` on
an order with `qty_requested = 10`, the code ignores the negative override
and writes `qty_done = 10`. -/
theorem C9_counterexample :
    (forceComplete c9Order (some (-1)) 0).qty_done = some 10 ∧
      some (10 : Int) ≠ some (-1 : Int) :=
  ⟨by decide, by decide⟩

/-- Claim C9 (amended): `forceComplete(qtyOverride?)` always succeeds; it
sets `fully_done_qty` to `qtyOverride` when provided and non-negative, else
to `requested_qty` when that is positive, else to the current
`fully_done_qty`; sets status `eseguito` and `forced_completed = true`;
appends one system audit note; and touches no batch.  On an order with
`requested_qty = 0` and `fully_done_qty = 0` and no override it writes
`fully_done_qty = 0`, status done, `forced_completed = true`. -/
theorem C9_amended_forceComplete (o : OrderState) (q : Option Int) (now : Int) :
    (forceComplete o q now).qty_done = some (forceQty o q) ∧
    forceQty o q = (match q with
      | some v => if 0 ≤ v then v
          else if 0 < numOr0 o.qty_requested then numOr0 o.qty_requested
            else numOr0 o.qty_done
      | none => if 0 < numOr0 o.qty_requested then numOr0 o.qty_requested
          else numOr0 o.qty_done) ∧
    (forceComplete o q now).status = OrderStatus.eseguito ∧
    (forceComplete o q now).forced_completed = true ∧
    (forceComplete o q now).batches = o.batches ∧
    (forceComplete o q now).notes_log = o.notes_log ++ [forceNote now (forceQty o q)] ∧
    (forceComplete c9zOrder none 0).qty_done = some 0 ∧
    (forceComplete c9zOrder none 0).status = OrderStatus.eseguito ∧
    (forceComplete c9zOrder none 0).forced_completed = true := by
  refine ⟨rfl, ?_, rfl, rfl, rfl, rfl, by decide, rfl, rfl⟩
  cases q <;> rfl

/-- Claim C10: hiding writes only `hidden = true` and `deleted_at`,
restoring writes only `hidden = false`, and every production-tracking field
(status, qty_done, steps_progress, steps_time, elapsed seconds, timer_start,
batches, packing fields, logs) survives hide followed by restore. -/
theorem C10_hide_restore_frame (o : OrderState) (now : Int) :
    (hideOrder o now).hidden = true ∧ (hideOrder o now).deleted_at = some now ∧
    (hideOrder o now).status = o.status ∧ (hideOrder o now).qty_done = o.qty_done ∧
    (hideOrder o now).steps_progress = o.steps_progress ∧
    (hideOrder o now).steps_time = o.steps_time ∧
    (hideOrder o now).elapsed_sec = o.elapsed_sec ∧
    (hideOrder o now).total_elapsed_sec = o.total_elapsed_sec ∧
    (hideOrder o now).timer_start = o.timer_start ∧
    (hideOrder o now).batches = o.batches ∧
    (hideOrder o now).packed_qty = o.packed_qty ∧
    (hideOrder o now).packed_boxes = o.packed_boxes ∧
    (hideOrder o now).packed_size = o.packed_size ∧
    (hideOrder o now).packed_weight = o.packed_weight ∧
    (hideOrder o now).packed_notes = o.packed_notes ∧
    (hideOrder o now).notes_log = o.notes_log ∧
    (hideOrder o now).ops_log = o.ops_log ∧
    (hideOrder o now).steps_count = o.steps_count ∧
    (hideOrder o now).qty_requested = o.qty_requested ∧
    (hideOrder o now).forced_completed = o.forced_completed ∧
    (restoreOrder o).hidden = false ∧
    (restoreOrder o).deleted_at = o.deleted_at ∧
    (restoreOrder o).status = o.status ∧
    (restoreOrder o).qty_done = o.qty_done ∧
    (restoreOrder o).steps_progress = o.steps_progress ∧
    (restoreOrder o).steps_time = o.steps_time ∧
    (restoreOrder o).elapsed_sec = o.elapsed_sec ∧
    (restoreOrder o).total_elapsed_sec = o.total_elapsed_sec ∧
    (restoreOrder o).timer_start = o.timer_start ∧
    (restoreOrder o).batches = o.batches ∧
    (restoreOrder o).notes_log = o.notes_log ∧
    (restoreOrder o).ops_log = o.ops_log ∧
    (restoreOrder (hideOrder o now)).hidden = false ∧
    (restoreOrder (hideOrder o now)).status = o.status ∧
    (restoreOrder (hideOrder o now)).qty_done = o.qty_done ∧
    (restoreOrder (hideOrder o now)).steps_progress = o.steps_progress ∧
    (restoreOrder (hideOrder o now)).steps_time = o.steps_time ∧
    (restoreOrder (hideOrder o now)).elapsed_sec = o.elapsed_sec ∧
    (restoreOrder (hideOrder o now)).total_elapsed_sec = o.total_elapsed_sec ∧
    (restoreOrder (hideOrder o now)).timer_start = o.timer_start ∧
    (restoreOrder (hideOrder o now)).batches = o.batches ∧
    (restoreOrder (hideOrder o now)).packed_qty = o.packed_qty ∧
    (restoreOrder (hideOrder o now)).packed_boxes = o.packed_boxes ∧
    (restoreOrder (hideOrder o now)).packed_size = o.packed_size ∧
    (restoreOrder (hideOrder o now)).packed_weight = o.packed_weight ∧
    (restoreOrder (hideOrder o now)).packed_notes = o.packed_notes ∧
    (restoreOrder (hideOrder o now)).notes_log = o.notes_log ∧
    (restoreOrder (hideOrder o now)).ops_log = o.ops_log := by
  repeat' apply And.intro
  all_goals rfl

end DecoRobi
